import Mathlib

/-!
Verification development for the cpp_usbhost_libusb repository.

The C++ sources (src/usb_host.h, src/usb_host.cpp, src/threading.h) are
shallowly embedded below.  Calls into libusb are modelled by a `Bus` oracle
supplying the result code of each libusb primitive; every device operation
returns, besides its C++ return value and the updated object state, the list
of bus (libusb) calls it performed, so that "makes no bus call" is a statement
about that list.  The `threading::Worker` class is modelled as a small-step
transition system whose interleavings cover the client thread (push/stop) and
the background execution thread.
-/

namespace UsbHostLib

/-- One libusb call made by the device layer, recorded for tracing. -/
inductive BusCall where
  | openDev                                   -- libusb_open
  | releaseInterface (h : Nat) (i : Int)      -- libusb_release_interface
  | setConfiguration (h : Nat) (c : Int)      -- libusb_set_configuration
  | claimInterface (h : Nat) (i : Int)        -- libusb_claim_interface
  | closeDev (h : Nat)                        -- libusb_close
  | resetDev (h : Nat)                        -- libusb_reset_device
  | clearHaltEp (h : Nat) (e : Int)           -- libusb_clear_halt
  deriving DecidableEq, Repr

/-- Oracle for the libusb backend: result codes (0 = LIBUSB_SUCCESS) of each
primitive, and the handle value produced by a successful libusb_open. -/
structure Bus where
  openResult : Int
  openHandle : Nat
  setConfigResult : Int → Int
  claimResult : Int → Int
  resetResult : Int
  clearHaltResult : Int → Int

/-- The mutable fields of class UsbDevice (usb_host.h:121-128).
`handle = none` models `mLibUsbDeviceHandle == nullptr`. -/
structure UsbDeviceState where
  hasContext : Bool          -- mLibUsbDeviceContext ≠ nullptr
  handle : Option Nat        -- mLibUsbDeviceHandle
  lastError : Int            -- mLastLibUsbError
  interfaceNumber : Int      -- mInterfaceNumber
  isValid : Bool             -- mIsValid
  deriving DecidableEq, Repr

/-- State of a freshly constructed UsbDevice (usb_host.cpp:58-67). -/
def initDevice (hasCtx : Bool) : UsbDeviceState :=
  { hasContext := hasCtx, handle := none, lastError := 0,
    interfaceNumber := -1, isValid := true }

namespace UsbDevice

/-- UsbDevice::open (usb_host.cpp:91-120).  Returns the C++ return value, the
updated state and the bus calls made.  Note the source function ends with an
unconditional `return false;`. -/
def openDev (bus : Bus) (s : UsbDeviceState) (config_number interface_number : Int) :
    Bool × UsbDeviceState × List BusCall :=
  let step1 : UsbDeviceState × List BusCall :=
    if s.hasContext = true ∧ s.handle = none then
      let r := bus.openResult
      if r ≠ 0 then
        ({ s with lastError := r, handle := none }, [BusCall.openDev])
      else
        ({ s with lastError := r, handle := some bus.openHandle }, [BusCall.openDev])
    else (s, [])
  let s1 := step1.1
  let step2 : UsbDeviceState × List BusCall :=
    if config_number ≥ 0 ∧ interface_number ≥ 0 then
      match s1.handle with
      | some h =>
        let relCalls :=
          if s1.interfaceNumber ≥ 0 then [BusCall.releaseInterface h s1.interfaceNumber] else []
        let res := bus.setConfigResult config_number
        if res = 0 then
          let res2 := bus.claimResult interface_number
          if res2 = 0 then
            ({ s1 with interfaceNumber := interface_number, lastError := res2 },
             relCalls ++ [BusCall.setConfiguration h config_number,
                          BusCall.claimInterface h interface_number])
          else
            ({ s1 with lastError := res2 },
             relCalls ++ [BusCall.setConfiguration h config_number,
                          BusCall.claimInterface h interface_number])
        else
          ({ s1 with lastError := res },
           relCalls ++ [BusCall.setConfiguration h config_number])
      | none => (s1, [])
    else (s1, [])
  (false, step2.1, step1.2 ++ step2.2)

/-- UsbDevice::close (usb_host.cpp:122-134).  The source releases a claimed
interface and calls libusb_close, but never assigns nullptr to
mLibUsbDeviceHandle, so `handle` is left unchanged. -/
def closeDev (s : UsbDeviceState) : UsbDeviceState × List BusCall :=
  match s.handle with
  | some h =>
    let step1 : UsbDeviceState × List BusCall :=
      if s.interfaceNumber ≥ 0 then
        ({ s with interfaceNumber := -1 }, [BusCall.releaseInterface h s.interfaceNumber])
      else (s, [])
    (step1.1, step1.2 ++ [BusCall.closeDev h])
  | none => (s, [])

/-- UsbDevice::resetPort (usb_host.cpp:136-156).  On failure it releases the
claim, calls libusb_close (without nulling the handle field), and clears the
validity flag; the failing result code is not stored in mLastLibUsbError. -/
def resetPort (bus : Bus) (s : UsbDeviceState) : Bool × UsbDeviceState × List BusCall :=
  match s.handle with
  | some h =>
    let res := bus.resetResult
    if res ≠ 0 then
      let step1 : UsbDeviceState × List BusCall :=
        if s.interfaceNumber ≥ 0 then
          ({ s with interfaceNumber := -1 }, [BusCall.releaseInterface h s.interfaceNumber])
        else (s, [])
      (false, { step1.1 with isValid := false },
       BusCall.resetDev h :: step1.2 ++ [BusCall.closeDev h])
    else (true, s, [BusCall.resetDev h])
  | none => (true, s, [])

/-- UsbDevice::clearHalt (usb_host.cpp:158-172). -/
def clearHalt (bus : Bus) (s : UsbDeviceState) (endpoint_number : Int) :
    Bool × UsbDeviceState × List BusCall :=
  match s.handle with
  | some h =>
    let res := bus.clearHaltResult endpoint_number
    if res ≠ 0 then
      (false, { s with lastError := res }, [BusCall.clearHaltEp h endpoint_number])
    else
      (true, s, [BusCall.clearHaltEp h endpoint_number])
  | none => (true, s, [])

end UsbDevice

/-- A bus on which every libusb call succeeds; libusb_open yields handle 7. -/
def busAllOk : Bus :=
  { openResult := 0, openHandle := 7, setConfigResult := fun _ => 0,
    claimResult := fun _ => 0, resetResult := 0, clearHaltResult := fun _ => 0 }

/-- A bus on which libusb_reset_device fails with code -99. -/
def busResetFail : Bus :=
  { openResult := 0, openHandle := 7, setConfigResult := fun _ => 0,
    claimResult := fun _ => 0, resetResult := -99, clearHaltResult := fun _ => 0 }

/-- A bus on which libusb_set_configuration fails with code -5. -/
def busCfgFail : Bus :=
  { openResult := 0, openHandle := 7, setConfigResult := fun _ => -5,
    claimResult := fun _ => 0, resetResult := 0, clearHaltResult := fun _ => 0 }

/-- A device whose handle is open (value 7) with no claimed interface. -/
def openedDev : UsbDeviceState :=
  { hasContext := true, handle := some 7, lastError := 0,
    interfaceNumber := -1, isValid := true }

/-- A device whose handle is open (value 7) with interface 0 claimed. -/
def claimedDev : UsbDeviceState :=
  { hasContext := true, handle := some 7, lastError := 0,
    interfaceNumber := 0, isValid := true }

/-- A device whose handle is open (value 7) with interface 3 claimed. -/
def claimedDev3 : UsbDeviceState :=
  { hasContext := true, handle := some 7, lastError := 0,
    interfaceNumber := 3, isValid := true }

/-! ### Device identity and the host registry (usb_host.h:41-47, usb_host.cpp:253-282) -/

/-- struct UsbDeviceId (usb_host.h:41-47): vendor and product are uint16_t. -/
structure UsbDeviceId where
  vendor : Nat
  product : Nat
  deriving DecidableEq, Repr

/-- The 32-bit key `uint32_t(vendor) << 16 | uint32_t(product)` used by
UsbDeviceId::operator< (usb_host.h:46). -/
def UsbDeviceId.encode (a : UsbDeviceId) : Nat :=
  a.vendor <<< 16 ||| a.product

/-- UsbDeviceId::operator< (usb_host.h:46). -/
def UsbDeviceId.ltKey (a b : UsbDeviceId) : Bool :=
  decide (a.encode < b.encode)

/-- The key-equivalence induced by operator<, which std::map uses to decide
whether an identity is already present: neither a < b nor b < a. -/
def UsbDeviceId.beqKey (a b : UsbDeviceId) : Bool :=
  !(UsbDeviceId.ltKey a b) && !(UsbDeviceId.ltKey b a)

/-- One hotplug arrival event: the identity that createUsbDeviceId
(usb_host.cpp:28-38) resolves for it (`none` if the descriptor read fails)
and a label for the libusb_device* context from which the UsbDevice would be
constructed. -/
structure ArrivalEvent where
  ident : Option UsbDeviceId
  ctx : Nat
  deriving DecidableEq, Repr

/-- The registry-relevant state of UsbHost: mDevices (identity → the context
label of the UsbDevice constructed for it) and the Worker queue of pending
arrival-callback jobs (each recorded by the device label it delivers). -/
structure HostState where
  devices : List (UsbDeviceId × Nat)
  queue : List Nat
  deriving DecidableEq, Repr

def emptyHost : HostState := { devices := [], queue := [] }

/-- mDevices.find(id) != mDevices.end() under std::map key equivalence. -/
def containsKey (m : List (UsbDeviceId × Nat)) (id : UsbDeviceId) : Bool :=
  m.any fun p => UsbDeviceId.beqKey p.1 id

/-- Lookup in the registry map under std::map key equivalence. -/
def lookupDev : List (UsbDeviceId × Nat) → UsbDeviceId → Option Nat
  | [], _ => none
  | p :: rest, id =>
    if UsbDeviceId.beqKey p.1 id then some p.2 else lookupDev rest id

/-- UsbHost::registerLibUsbDevice (usb_host.cpp:253-272): resolve the
identity (failure ⇒ silently ignore); if absent, construct and insert the
Device and, when an arrival callback is configured (`hasCb`), push the
callback job onto the Worker; if present, do nothing. -/
def registerLibUsbDevice (hasCb : Bool) (st : HostState) (ev : ArrivalEvent) : HostState :=
  match ev.ident with
  | none => st
  | some id =>
    if containsKey st.devices id then st
    else
      { devices := st.devices ++ [(id, ev.ctx)],
        queue := if hasCb then st.queue ++ [ev.ctx] else st.queue }

/-- Processing a sequence of arrival events in order. -/
def processArrivals (hasCb : Bool) (evs : List ArrivalEvent) (st : HostState) : HostState :=
  evs.foldl (registerLibUsbDevice hasCb) st

/-- The context of the first arrival event in the list whose identity is
key-equivalent to `id`, if any. -/
def firstArrival (id : UsbDeviceId) : List ArrivalEvent → Option Nat
  | [] => none
  | ev :: rest =>
    match ev.ident with
    | some i => if UsbDeviceId.beqKey i id then some ev.ctx else firstArrival id rest
    | none => firstArrival id rest

/-! ### threading::Worker (threading.h:85-183) as a small-step system -/

/-- A queued job: a label plus whether the job body itself succeeds.  The
Worker never inspects the job body, so its semantics cannot depend on `ok`. -/
structure Job where
  label : Nat
  ok : Bool
  deriving DecidableEq, Repr

/-- Program counter of the worker execution thread (threading.h:113-135):
`checking` = at the `while (!stop_request)` test, `waiting` = in
`cond_var.wait`, `running` = in the inner drain loop over jobs_cpy,
`finished` = the thread function has returned. -/
inductive WPC where
  | checking
  | waiting
  | running
  | finished
  deriving DecidableEq, Repr

/-- State of one Worker plus its execution thread.  `jobs`/`counter` are the
shared queue and wake counter, `jobsCpy` the thread-local batch, `executed`
the trace of jobs actually run, in order. -/
structure WState where
  threadUp : Bool
  pc : WPC
  stopReq : Bool
  counter : Nat
  jobs : List Job
  jobsCpy : List Job
  executed : List Job
  deriving DecidableEq, Repr

/-- A Worker as default-constructed (threading.h:172). -/
def freshWorker : WState :=
  { threadUp := false, pc := WPC.finished, stopReq := false,
    counter := 0, jobs := [], jobsCpy := [], executed := [] }

/-- Worker::start (threading.h:106-144) by an uncontended caller: spawns the
thread when none exists, then in every case executes the source's final
unconditional `return false;`.  The spawned thread begins at the outer loop
test. -/
def startW (s : WState) : Bool × WState :=
  if s.threadUp then (false, s)
  else (false, { s with threadUp := true, pc := WPC.checking })

/-- Interleaved actions on a Worker: client-side push and the two phases of
stop (the stop_request store / notify, and the completed join with the state
reset of threading.h:156-160), plus the three kinds of step the execution
thread takes. -/
inductive WAct where
  | push (j : Job)
  | stopRequest
  | joinReset
  | tCheck
  | tWake
  | tRun
  deriving DecidableEq, Repr

/-- One small step.  `none` means the action is not enabled in this state
(e.g. the condition-variable predicate of threading.h:123 does not hold, or
there is no thread to join). -/
def wstep (s : WState) : WAct → Option WState
  | WAct.push j =>
    some { s with jobs := s.jobs ++ [j], counter := s.counter + 1 }
  | WAct.stopRequest =>
    if s.threadUp = true then some { s with stopReq := true } else none
  | WAct.joinReset =>
    if s.threadUp = true ∧ s.stopReq = true ∧ s.pc = WPC.finished then
      some { s with threadUp := false, counter := 0, jobs := [],
                    jobsCpy := [], stopReq := false }
    else none
  | WAct.tCheck =>
    if s.threadUp = true ∧ s.pc = WPC.checking then
      some { s with pc := if s.stopReq then WPC.finished else WPC.waiting }
    else none
  | WAct.tWake =>
    if s.threadUp = true ∧ s.pc = WPC.waiting ∧ (0 < s.counter ∨ s.stopReq = true) then
      some { s with pc := WPC.running, jobs := s.jobsCpy,
                    jobsCpy := s.jobs, counter := 0 }
    else none
  | WAct.tRun =>
    if s.threadUp = true ∧ s.pc = WPC.running then
      match s.jobsCpy with
      | [] => some { s with pc := WPC.checking }
      | j :: rest => some { s with jobsCpy := rest, executed := s.executed ++ [j] }
    else none

/-- Run a list of actions in order; fails if any action is not enabled. -/
def runActs : List WAct → WState → Option WState
  | [], s => some s
  | a :: rest, s =>
    match wstep s a with
    | some s2 => runActs rest s2
    | none => none

/-- The jobs pushed by an action list, in push order. -/
def pushesOf : List WAct → List Job
  | [] => []
  | WAct.push j :: rest => j :: pushesOf rest
  | _ :: rest => pushesOf rest

/-- Invariant tying a Worker state to the list `P` of jobs pushed so far (on
traces without a completed join): the executed jobs, the thread-local batch
and the shared queue concatenated give exactly the pushes in order, and the
batch is empty except while the thread is in its inner drain loop. -/
def WInv (P : List Job) (s : WState) : Prop :=
  s.executed ++ s.jobsCpy ++ s.jobs = P ∧ (s.pc ≠ WPC.running → s.jobsCpy = [])

/-- A Worker whose thread has exited its loop with one job still queued:
the state stop() sees right before its join completes. -/
def stopReadyW : WState :=
  { threadUp := true, pc := WPC.finished, stopReq := true, counter := 2,
    jobs := [{ label := 5, ok := true }], jobsCpy := [],
    executed := [{ label := 4, ok := true }] }

/-- The state after stop()'s join and reset on stopReadyW. -/
def stopResetW : WState :=
  { threadUp := false, pc := WPC.finished, stopReq := false, counter := 0,
    jobs := [], jobsCpy := [], executed := [{ label := 4, ok := true }] }

/-- A trace pushing a failing job then a succeeding one and letting the
thread drain them. -/
def fifoActs : List WAct :=
  [WAct.tCheck, WAct.push { label := 1, ok := false },
   WAct.push { label := 2, ok := true }, WAct.tWake, WAct.tRun, WAct.tRun, WAct.tRun]

/-- The Worker state along fifoActs just before the first job runs. -/
def fifoMidW : WState :=
  { threadUp := true, pc := WPC.running, stopReq := false, counter := 0,
    jobs := [], jobsCpy := [{ label := 1, ok := false }, { label := 2, ok := true }],
    executed := [] }

/-- The Worker state at the end of fifoActs. -/
def fifoFinalW : WState :=
  { threadUp := true, pc := WPC.checking, stopReq := false, counter := 0,
    jobs := [], jobsCpy := [],
    executed := [{ label := 1, ok := false }, { label := 2, ok := true }] }

/-- Sample arrival events: identity (1, 2) arrives twice (contexts 10 and
20), identity (3, 4) arrives once (context 30). -/
def evA : ArrivalEvent := { ident := some { vendor := 1, product := 2 }, ctx := 10 }

def evA2 : ArrivalEvent := { ident := some { vendor := 1, product := 2 }, ctx := 20 }

def evB : ArrivalEvent := { ident := some { vendor := 3, product := 4 }, ctx := 30 }

def sampleEvs : List ArrivalEvent := [evA, evA2, evB]

/-- A registry already containing identity (1, 2) with its callback queued. -/
def hostAB : HostState :=
  { devices := [({ vendor := 1, product := 2 }, 10)], queue := [10] }

/-! ## Theorems -/

/-! ### Helper lemmas (shared; none is a claim theorem) -/

/-- Key equivalence under UsbDeviceId::operator< is equality of the encoded
32-bit keys. -/
theorem beqKey_iff (a b : UsbDeviceId) :
    UsbDeviceId.beqKey a b = true ↔ a.encode = b.encode := by
  unfold UsbDeviceId.beqKey UsbDeviceId.ltKey
  constructor
  · intro h
    rw [Bool.and_eq_true] at h
    obtain ⟨h1, h2⟩ := h
    rw [Bool.not_eq_true', decide_eq_false_iff_not] at h1 h2
    omega
  · intro h
    rw [h]
    simp

/-- For in-range product values the encoded key is the arithmetic value
vendor * 2^16 + product. -/
theorem encode_eq_mul_add (a : UsbDeviceId) (hp : a.product < 65536) :
    a.encode = a.vendor * 65536 + a.product := by
  have hpow : (2 : Nat) ^ 16 = 65536 := by norm_num
  have h3 := Nat.mul_add_lt_is_or (i := 16) (by omega : a.product < 2 ^ 16) a.vendor
  rw [hpow] at h3
  unfold UsbDeviceId.encode
  rw [Nat.shiftLeft_eq, hpow, Nat.mul_comm a.vendor 65536]
  exact h3.symm

/-- For uint16_t-range identities, key equivalence is structural equality. -/
theorem beqKey_eq_iff (a b : UsbDeviceId) (ha : a.product < 65536) (hb : b.product < 65536) :
    UsbDeviceId.beqKey a b = true ↔ a = b := by
  rw [beqKey_iff, encode_eq_mul_add a ha, encode_eq_mul_add b hb]
  constructor
  · intro h
    have hv : a.vendor = b.vendor := by omega
    have hp : a.product = b.product := by omega
    cases a
    cases b
    simp_all
  · intro h
    rw [h]

theorem beqKey_trans (a b c : UsbDeviceId) (h1 : UsbDeviceId.beqKey a b = true)
    (h2 : UsbDeviceId.beqKey b c = true) : UsbDeviceId.beqKey a c = true := by
  rw [beqKey_iff] at h1 h2 ⊢
  exact h1.trans h2

/-- Looking up after appending a fresh entry at the back. -/
theorem lookupDev_append (l : List (UsbDeviceId × Nat)) (i : UsbDeviceId) (c : Nat)
    (id : UsbDeviceId) :
    lookupDev (l ++ [(i, c)]) id =
      match lookupDev l id with
      | some d => some d
      | none => if UsbDeviceId.beqKey i id then some c else none := by
  induction l with
  | nil => simp [lookupDev]
  | cons p rest ih =>
    by_cases hp : UsbDeviceId.beqKey p.1 id <;> simp [lookupDev, hp, ih]

/-- If some entry of the map is key-equivalent to `id`, lookup finds one. -/
theorem lookupDev_isSome_of_any (l : List (UsbDeviceId × Nat)) (id : UsbDeviceId)
    (h : ∃ p ∈ l, UsbDeviceId.beqKey p.1 id = true) : (lookupDev l id).isSome := by
  induction l with
  | nil =>
    rcases h with ⟨p, hp, -⟩
    cases hp
  | cons q rest ih =>
    by_cases hq : UsbDeviceId.beqKey q.1 id = true
    · simp [lookupDev, hq]
    · rcases h with ⟨p, hp, hbeq⟩
      rcases List.mem_cons.mp hp with rfl | hmem
      · exact absurd hbeq hq
      · simpa [lookupDev, hq] using ih ⟨p, hmem, hbeq⟩

/-- The central registry lemma: processing arrivals on top of a state keeps
existing entries and otherwise installs the first arrival of each key. -/
theorem processArrivals_lookup (hasCb : Bool) (evs : List ArrivalEvent) (st : HostState)
    (id : UsbDeviceId) :
    lookupDev (processArrivals hasCb evs st).devices id =
      match lookupDev st.devices id with
      | some d => some d
      | none => firstArrival id evs := by
  induction evs generalizing st with
  | nil =>
    cases hl : lookupDev st.devices id <;> simp [processArrivals, firstArrival, hl]
  | cons ev rest ih =>
    have hstep : processArrivals hasCb (ev :: rest) st
        = processArrivals hasCb rest (registerLibUsbDevice hasCb st ev) := rfl
    rw [hstep, ih]
    cases hident : ev.ident with
    | none =>
      simp [registerLibUsbDevice, hident, firstArrival]
    | some i =>
      by_cases hc : containsKey st.devices i = true
      · simp only [registerLibUsbDevice, hident, if_pos hc]
        cases hl : lookupDev st.devices id with
        | some d => simp [firstArrival, hident, hl]
        | none =>
          have hne : ¬ UsbDeviceId.beqKey i id = true := by
            intro hx
            rcases List.any_eq_true.mp hc with ⟨p, hmem, hbi⟩
            have : (lookupDev st.devices id).isSome :=
              lookupDev_isSome_of_any st.devices id
                ⟨p, hmem, beqKey_trans p.1 i id (by simpa using hbi) hx⟩
            rw [hl] at this
            cases this
          simp [firstArrival, hident, hne, hl]
      · have hreg : (registerLibUsbDevice hasCb st ev).devices = st.devices ++ [(i, ev.ctx)] := by
          simp [registerLibUsbDevice, hident, if_neg hc]
        rw [hreg, lookupDev_append]
        cases hl : lookupDev st.devices id with
        | some d => simp [hl, firstArrival, hident]
        | none =>
          by_cases hb : UsbDeviceId.beqKey i id = true <;>
            simp [hl, hb, firstArrival, hident]

/-- pushesOf distributes over cons. -/
theorem pushesOf_cons (a : WAct) (rest : List WAct) :
    pushesOf (a :: rest) = pushesOf [a] ++ pushesOf rest := by
  cases a <;> simp [pushesOf]

/-- Every enabled non-join step preserves the Worker invariant, extending the
push list by the step's own pushes. -/
theorem wstep_preserves (s s2 : WState) (a : WAct) (ha : a ≠ WAct.joinReset)
    (P : List Job) (hInv : WInv P s) (h : wstep s a = some s2) :
    WInv (P ++ pushesOf [a]) s2 := by
  obtain ⟨h1, h2⟩ := hInv
  cases a with
  | push j =>
    simp only [wstep] at h
    cases h
    exact ⟨by simp [pushesOf, ← h1], h2⟩
  | stopRequest =>
    simp only [wstep] at h
    split at h
    · cases h
      exact ⟨by simpa [pushesOf] using h1, h2⟩
    · cases h
  | joinReset => exact absurd rfl ha
  | tCheck =>
    simp only [wstep] at h
    split at h
    · rename_i hcond
      cases h
      have hcpy : s.jobsCpy = [] := h2 (by rw [hcond.2]; intro hx; cases hx)
      exact ⟨by simpa [pushesOf, hcpy] using h1, fun _ => hcpy⟩
    · cases h
  | tWake =>
    simp only [wstep] at h
    split at h
    · rename_i hcond
      cases h
      have hcpy : s.jobsCpy = [] := h2 (by rw [hcond.2.1]; intro hx; cases hx)
      constructor
      · simpa [pushesOf, hcpy] using h1
      · intro hpc
        exact absurd rfl hpc
    · cases h
  | tRun =>
    simp only [wstep] at h
    split at h
    · rename_i hcond
      cases hcpy : s.jobsCpy with
      | nil =>
        rw [hcpy] at h
        cases h
        exact ⟨by simpa [pushesOf, hcpy] using h1, fun _ => rfl⟩
      | cons j restj =>
        rw [hcpy] at h
        cases h
        constructor
        · rw [← h1, hcpy]
          simp [pushesOf]
        · intro hpc
          exact absurd hcond.2 hpc
    · cases h

/-- Running a join-free action list preserves the Worker invariant. -/
theorem runActs_preserves (acts : List WAct) (s s2 : WState) (P : List Job)
    (hnj : ∀ a ∈ acts, a ≠ WAct.joinReset) (hInv : WInv P s)
    (h : runActs acts s = some s2) : WInv (P ++ pushesOf acts) s2 := by
  induction acts generalizing s P with
  | nil =>
    simp only [runActs] at h
    cases h
    simpa [pushesOf]
  | cons a rest ih =>
    simp only [runActs] at h
    cases hw : wstep s a with
    | none => rw [hw] at h; cases h
    | some s3 =>
      rw [hw] at h
      have hInv3 := wstep_preserves s s3 a (hnj a (List.mem_cons_self a rest)) P hInv hw
      have hres := ih s3 (P ++ pushesOf [a])
        (fun b hb => hnj b (List.mem_cons_of_mem a hb)) hInv3 h
      rw [pushesOf_cons, ← List.append_assoc]
      exact hres

/-- Claim C1: UsbDevice::open should return true exactly when the requested
work fully succeeds.  In the code the function returns false unconditionally
(usb_host.cpp:119), contradicting its own doc comment (usb_host.h:86).  On a
fresh device with a context, against a bus on which every call succeeds,
open(1, 0) opens handle 7, sets the configuration, claims interface 0 — full
success — yet returns false; indeed it returns false for every bus, state and
arguments. -/
theorem usb_open_returns_false :
    (∀ (bus : Bus) (s : UsbDeviceState) (c i : Int),
        (UsbDevice.openDev bus s c i).1 = false)
    ∧ (UsbDevice.openDev busAllOk (initDevice true) 1 0).2.1.handle = some 7
    ∧ (UsbDevice.openDev busAllOk (initDevice true) 1 0).2.1.interfaceNumber = 0
    ∧ (UsbDevice.openDev busAllOk (initDevice true) 1 0).2.1.lastError = 0
    ∧ (UsbDevice.openDev busAllOk (initDevice true) 1 0).1 = false := by
  refine ⟨fun bus s c i => rfl, ?_, ?_, ?_, ?_⟩ <;> decide

/-- Claim C2: after close() the handle should be null, a second close() should
be a bus-call-free no-op, and open() should be able to succeed again.  The
code never assigns nullptr to mLibUsbDeviceHandle in close()
(usb_host.cpp:122-134): after closing an open device the handle field still
holds the stale handle, a second close() performs another libusb_close bus
call on it, and a subsequent open() skips libusb_open (no openDev bus call),
leaving the device on the stale closed handle. -/
theorem usb_close_keeps_handle :
    (UsbDevice.closeDev openedDev).1.handle = some 7
    ∧ (UsbDevice.closeDev (UsbDevice.closeDev openedDev).1).2 = [BusCall.closeDev 7]
    ∧ (UsbDevice.openDev busAllOk (UsbDevice.closeDev openedDev).1 (-1) (-1)).2.2 = []
    ∧ (UsbDevice.openDev busAllOk (UsbDevice.closeDev openedDev).1 (-1) (-1)).2.1.handle
        = some 7 := by
  decide

/-- Claim C4: after a failed resetPort() has cleared the validity flag, every
subsequent open/close/clearHalt should fail fast without bus calls.  The code
has no validity guard: after resetPort fails (device invalid, stale handle
still recorded), clearHalt(2) performs a libusb_clear_halt bus call and even
returns true, close() performs another libusb_close bus call, and open(1, 0)
performs configuration bus calls on the stale handle. -/
theorem usb_invalid_no_guard :
    (UsbDevice.resetPort busResetFail claimedDev).2.1.isValid = false
    ∧ (UsbDevice.resetPort busResetFail claimedDev).2.1.handle = some 7
    ∧ (UsbDevice.clearHalt busResetFail (UsbDevice.resetPort busResetFail claimedDev).2.1 2).1
        = true
    ∧ (UsbDevice.clearHalt busResetFail (UsbDevice.resetPort busResetFail claimedDev).2.1 2).2.2
        = [BusCall.clearHaltEp 7 2]
    ∧ (UsbDevice.closeDev (UsbDevice.resetPort busResetFail claimedDev).2.1).2
        = [BusCall.closeDev 7]
    ∧ (UsbDevice.openDev busResetFail (UsbDevice.resetPort busResetFail claimedDev).2.1 1 0).2.2
        = [BusCall.setConfiguration 7 1, BusCall.claimInterface 7 0] := by
  decide

/-- Claim C6 counterexample: the claim says a partial failure of
open(config, interface) leaves no interface recorded as claimed.  On a device
with interface 3 claimed, open(1, 0) against a bus whose
libusb_set_configuration fails releases interface 3 on the bus as cleanup,
yet mInterfaceNumber is left at 3 — an interface is still recorded as
claimed. -/
theorem usb_open_partial_fail_cex :
    (UsbDevice.openDev busCfgFail claimedDev3 1 0).2.1.interfaceNumber = 3
    ∧ (UsbDevice.openDev busCfgFail claimedDev3 1 0).2.2
        = [BusCall.releaseInterface 7 3, BusCall.setConfiguration 7 1]
    ∧ (UsbDevice.openDev busCfgFail claimedDev3 1 0).2.1.handle = some 7
    ∧ (UsbDevice.openDev busCfgFail claimedDev3 1 0).2.1.lastError = -5 := by
  decide

/-- Claim C6 as amended: when setting the configuration or claiming the new
interface fails on a device with an open handle, the handle stays open, the
last-error code is the code of the last failing step, and the
claimed-interface number is left unchanged from before the call (a previously
claimed interface stays recorded even though it was released as best-effort
cleanup).  The device state is written out field by field
(context flag, handle, last error, claimed interface, validity). -/
theorem usb_open_partial_fail_amended (bus : Bus) (ctx valid : Bool) (h : Nat)
    (le ifn c i : Int) (hc : c ≥ 0) (hi : i ≥ 0) :
    (bus.setConfigResult c ≠ 0 →
      (UsbDevice.openDev bus ⟨ctx, some h, le, ifn, valid⟩ c i).2.1.handle = some h
      ∧ (UsbDevice.openDev bus ⟨ctx, some h, le, ifn, valid⟩ c i).2.1.interfaceNumber = ifn
      ∧ (UsbDevice.openDev bus ⟨ctx, some h, le, ifn, valid⟩ c i).2.1.lastError
          = bus.setConfigResult c)
    ∧ (bus.setConfigResult c = 0 → bus.claimResult i ≠ 0 →
      (UsbDevice.openDev bus ⟨ctx, some h, le, ifn, valid⟩ c i).2.1.handle = some h
      ∧ (UsbDevice.openDev bus ⟨ctx, some h, le, ifn, valid⟩ c i).2.1.interfaceNumber = ifn
      ∧ (UsbDevice.openDev bus ⟨ctx, some h, le, ifn, valid⟩ c i).2.1.lastError
          = bus.claimResult i) := by
  have hno : ¬ (ctx = true ∧ (some h : Option Nat) = none) := by simp
  constructor
  · intro hcfg
    simp only [UsbDevice.openDev, if_neg hno, if_pos (And.intro hc hi), if_neg hcfg]
    simp
  · intro hcfg hclaim
    simp only [UsbDevice.openDev, if_neg hno, if_pos (And.intro hc hi), if_pos hcfg,
      if_neg hclaim]
    simp

/-- Witness for usb_open_partial_fail_amended at a concrete input: device with
handle 7 and interface 3 claimed, configuration-set failure code -5. -/
theorem usb_open_partial_fail_amended_witness :
    (UsbDevice.openDev busCfgFail ⟨true, some 7, 0, 3, true⟩ 2 1).2.1.handle = some 7
    ∧ (UsbDevice.openDev busCfgFail ⟨true, some 7, 0, 3, true⟩ 2 1).2.1.interfaceNumber = 3
    ∧ (UsbDevice.openDev busCfgFail ⟨true, some 7, 0, 3, true⟩ 2 1).2.1.lastError
        = busCfgFail.setConfigResult 2 :=
  (usb_open_partial_fail_amended busCfgFail true true 7 0 3 2 1
      (by decide) (by decide)).1 (by decide)

/-- Claim C7 counterexample: the claim says a failing resetPort() records the
reset's error code as the device's last-error code.  On a device with an open
handle and last-error 0, a reset failing with -99 returns false but leaves
the last-error code at 0. -/
theorem usb_reset_error_not_recorded_cex :
    (UsbDevice.resetPort busResetFail claimedDev).1 = false
    ∧ busResetFail.resetResult = -99
    ∧ (UsbDevice.resetPort busResetFail claimedDev).2.1.lastError = 0 := by
  decide

/-- Claim C7 as amended: open and clearHalt record a failing bus call's code
as the device's last-error code (clearHalt additionally returns false), while
a failing resetPort() returns false and clears the validity flag but leaves
the last-error code unchanged. -/
theorem usb_error_recording_amended (bus : Bus) (ctx valid : Bool) (h : Nat)
    (le ifn c i e : Int) :
    (bus.openResult ≠ 0 →
      (UsbDevice.openDev bus ⟨true, none, le, ifn, valid⟩ c i).2.1.lastError = bus.openResult)
    ∧ (bus.clearHaltResult e ≠ 0 →
      (UsbDevice.clearHalt bus ⟨ctx, some h, le, ifn, valid⟩ e).1 = false
      ∧ (UsbDevice.clearHalt bus ⟨ctx, some h, le, ifn, valid⟩ e).2.1.lastError
          = bus.clearHaltResult e)
    ∧ (bus.resetResult ≠ 0 →
      (UsbDevice.resetPort bus ⟨ctx, some h, le, ifn, valid⟩).1 = false
      ∧ (UsbDevice.resetPort bus ⟨ctx, some h, le, ifn, valid⟩).2.1.lastError = le
      ∧ (UsbDevice.resetPort bus ⟨ctx, some h, le, ifn, valid⟩).2.1.isValid = false) := by
  refine ⟨?_, ?_, ?_⟩
  · intro hr
    have hyes : ((true : Bool) = true ∧ (none : Option Nat) = none) := ⟨rfl, rfl⟩
    simp only [UsbDevice.openDev, if_pos hyes, if_pos hr]
    split <;> rfl
  · intro hr
    simp only [UsbDevice.clearHalt, if_pos hr]
    simp
  · intro hr
    simp only [UsbDevice.resetPort, if_pos hr]
    simp
    split <;> rfl

/-- Witness for usb_error_recording_amended at concrete inputs: a fresh device
against a bus whose libusb_open fails with -4, and the reset-failure device
of the counterexample. -/
theorem usb_error_recording_amended_witness :
    ((UsbDevice.openDev
        { openResult := -4, openHandle := 7, setConfigResult := fun _ => 0,
          claimResult := fun _ => 0, resetResult := 0, clearHaltResult := fun _ => 0 }
        ⟨true, none, 0, -1, true⟩ (-1) (-1)).2.1.lastError = -4)
    ∧ ((UsbDevice.resetPort busResetFail ⟨true, some 7, 0, 0, true⟩).1 = false
      ∧ (UsbDevice.resetPort busResetFail ⟨true, some 7, 0, 0, true⟩).2.1.lastError = 0
      ∧ (UsbDevice.resetPort busResetFail ⟨true, some 7, 0, 0, true⟩).2.1.isValid = false) :=
  ⟨(usb_error_recording_amended
      { openResult := -4, openHandle := 7, setConfigResult := fun _ => 0,
        claimResult := fun _ => 0, resetResult := 0, clearHaltResult := fun _ => 0 }
      true true 7 0 (-1) (-1) (-1) 0).1 (by decide),
   (usb_error_recording_amended busResetFail true true 7 0 0 (-1) (-1) 0).2.2 (by decide)⟩

/-- Claim C10: on a device whose handle is not open, resetPort() and
clearHalt(endpoint) both return true, leave the whole device state unchanged,
and make no bus call. -/
theorem usb_noop_when_closed (bus : Bus) (s : UsbDeviceState) (e : Int)
    (hh : s.handle = none) :
    UsbDevice.resetPort bus s = (true, s, [])
    ∧ UsbDevice.clearHalt bus s e = (true, s, []) := by
  constructor
  · simp only [UsbDevice.resetPort, hh]
  · simp only [UsbDevice.clearHalt, hh]

/-- Witness for usb_noop_when_closed on a fresh (never-opened) device. -/
theorem usb_noop_when_closed_witness :
    UsbDevice.resetPort busAllOk (initDevice true) = (true, initDevice true, [])
    ∧ UsbDevice.clearHalt busAllOk (initDevice true) 5 = (true, initDevice true, []) :=
  usb_noop_when_closed busAllOk (initDevice true) 5 rfl

/-- Claim C5: Worker::start should return true exactly when it spawns the
execution thread.  The code ends with an unconditional `return false;`
(threading.h:143), contradicting its own doc comment (threading.h:104): on a
fresh Worker start() spawns the thread yet returns false, and it also returns
false when already started. -/
theorem worker_start_returns_false :
    (startW freshWorker).1 = false
    ∧ (startW freshWorker).2.threadUp = true
    ∧ (startW (startW freshWorker).2).1 = false
    ∧ (startW (startW freshWorker).2).2 = (startW freshWorker).2 := by
  decide

/-- Claim C3 counterexample: the claim says a job queued but not yet running
when stop() is requested is never executed.  Trace: the thread reaches its
wait; job (1) is pushed; stop is requested — at that point job (1) is queued,
unexecuted, and not running; the thread then wakes (predicate holds), swaps
the queue in as its batch and runs job (1); it then observes the stop request
and exits, and the join completes.  The supposedly dropped job was executed. -/
theorem worker_stop_drop_cex :
    ((runActs [WAct.tCheck, WAct.push { label := 1, ok := true }, WAct.stopRequest]
        (startW freshWorker).2).map
      (fun s => (s.stopReq, s.pc, s.jobs, s.executed)))
      = some (true, WPC.waiting, [{ label := 1, ok := true }], [])
    ∧ ((runActs [WAct.tCheck, WAct.push { label := 1, ok := true }, WAct.stopRequest,
          WAct.tWake, WAct.tRun, WAct.tRun, WAct.tCheck, WAct.joinReset]
        (startW freshWorker).2).map
      (fun s => (s.executed, s.threadUp, s.jobs)))
      = some ([{ label := 1, ok := true }], false, []) := by
  decide

/-- Claim C3 as amended: jobs queued but not yet running when stop() is
requested may still be executed by the worker thread as its final batch; only
the jobs still in the shared queue once the thread has exited are discarded
unrun.  When the join of stop() completes, the internal state is reset — the
queue and batch are empty, the counter is zero, the stop flag is cleared, the
thread is gone, and the executed-job trace is unchanged (the discarded jobs
were not run) — so a future start() spawns a thread again. -/
theorem worker_stop_reset (s s2 : WState) (h : wstep s WAct.joinReset = some s2) :
    s2.jobs = [] ∧ s2.jobsCpy = [] ∧ s2.counter = 0 ∧ s2.stopReq = false
    ∧ s2.threadUp = false ∧ s2.executed = s.executed
    ∧ (startW s2).2.threadUp = true := by
  simp only [wstep] at h
  split at h
  · cases h
    refine ⟨rfl, rfl, rfl, rfl, rfl, rfl, ?_⟩
    simp [startW]
  · cases h

/-- Witness for worker_stop_reset: the join completes on a Worker whose
thread has exited with job (5) still queued; the reset state drops it without
running it and a new start() spawns a thread. -/
theorem worker_stop_reset_witness :
    stopResetW.jobs = [] ∧ stopResetW.jobsCpy = [] ∧ stopResetW.counter = 0
    ∧ stopResetW.stopReq = false ∧ stopResetW.threadUp = false
    ∧ stopResetW.executed = stopReadyW.executed
    ∧ (startW stopResetW).2.threadUp = true :=
  worker_stop_reset stopReadyW stopResetW (by decide)

/-- Claim C9: on a single Worker, along any interleaving that does not
include a completed stop-join, the jobs executed so far together with the
still-pending batch and queue are exactly the pushed jobs in push order (so
execution order is FIFO enqueue order, and once the queues are drained the
executed trace equals the full push sequence); and the thread runs the head
job of its batch unconditionally — whether or not that job's own body
succeeds (`ok`), the remaining jobs stay scheduled behind it. -/
theorem worker_fifo (acts : List WAct) (s2 : WState)
    (hnj : ∀ a ∈ acts, a ≠ WAct.joinReset)
    (h : runActs acts (startW freshWorker).2 = some s2) :
    (s2.executed ++ s2.jobsCpy ++ s2.jobs = pushesOf acts)
    ∧ (s2.jobsCpy = [] → s2.jobs = [] → s2.executed = pushesOf acts)
    ∧ (∀ (s : WState) (j : Job) (rest : List Job),
        s.threadUp = true → s.pc = WPC.running → s.jobsCpy = j :: rest →
        wstep s WAct.tRun
          = some { s with jobsCpy := rest, executed := s.executed ++ [j] }) := by
  have h0 : WInv [] (startW freshWorker).2 := by
    constructor <;> simp [startW, freshWorker]
  have h1 := runActs_preserves acts (startW freshWorker).2 s2 [] hnj h0 h
  have hmain : s2.executed ++ s2.jobsCpy ++ s2.jobs = pushesOf acts := by
    simpa using h1.1
  refine ⟨hmain, ?_, ?_⟩
  · intro hc hj
    rw [hc, hj] at hmain
    simpa using hmain
  · intro s j rest ht hpc hcpy
    simp [wstep, ht, hpc, hcpy]

/-- Witness for worker_fifo: a thread-started Worker receives a failing job
(1) and a succeeding job (2) and drains them; the executed trace is exactly
[job 1, job 2] in push order, and the drain step on the batch
[job 1, job 2] runs the failing job 1 while keeping job 2 scheduled. -/
theorem worker_fifo_witness :
    fifoFinalW.executed = pushesOf fifoActs
    ∧ wstep fifoMidW WAct.tRun
        = some { fifoMidW with
                 jobsCpy := [Job.mk 2 true],
                 executed := fifoMidW.executed ++ [Job.mk 1 false] } :=
  ⟨(worker_fifo fifoActs fifoFinalW (by decide) (by decide)).2.1 rfl rfl,
   (worker_fifo fifoActs fifoFinalW (by decide) (by decide)).2.2 fifoMidW
     (Job.mk 1 false) [Job.mk 2 true] rfl rfl rfl⟩

/-- Claim C8: for any sequence of arrival events, lookup in the resulting
registry (started empty) finds exactly the identities that arrived, each
mapped to the device constructed from the first arrival of that identity;
an arrival whose identity is already present leaves the whole host state —
registry and callback queue — unchanged (duplicate arrivals are idempotent
and enqueue no callback); and for uint16_t-range identities the map's key
equivalence coincides with identity equality. -/
theorem registry_first_arrival (hasCb : Bool) (evs : List ArrivalEvent) (id : UsbDeviceId) :
    lookupDev (processArrivals hasCb evs emptyHost).devices id = firstArrival id evs
    ∧ (∀ (st : HostState) (ev : ArrivalEvent) (i : UsbDeviceId),
        ev.ident = some i → containsKey st.devices i = true →
        registerLibUsbDevice hasCb st ev = st)
    ∧ (∀ a b : UsbDeviceId, a.product < 65536 → b.product < 65536 →
        (UsbDeviceId.beqKey a b = true ↔ a = b)) := by
  refine ⟨?_, ?_, ?_⟩
  · have hmain := processArrivals_lookup hasCb evs emptyHost id
    simpa [emptyHost, lookupDev] using hmain
  · intro st ev i hident hc
    simp [registerLibUsbDevice, hident, hc]
  · exact fun a b ha hb => beqKey_eq_iff a b ha hb

/-- Witness for registry_first_arrival: identity (1, 2) arrives twice
(contexts 10 then 20) and (3, 4) once; lookup of (1, 2) matches the
first-arrival function; a duplicate arrival on a registry already holding
(1, 2) changes nothing; and key equivalence at (1, 2) is equality. -/
theorem registry_first_arrival_witness :
    lookupDev (processArrivals true sampleEvs emptyHost).devices { vendor := 1, product := 2 }
      = firstArrival { vendor := 1, product := 2 } sampleEvs
    ∧ registerLibUsbDevice true hostAB evA2 = hostAB
    ∧ (UsbDeviceId.beqKey { vendor := 1, product := 2 } { vendor := 1, product := 2 } = true
        ↔ ({ vendor := 1, product := 2 } : UsbDeviceId) = { vendor := 1, product := 2 }) :=
  ⟨(registry_first_arrival true sampleEvs { vendor := 1, product := 2 }).1,
   (registry_first_arrival true sampleEvs { vendor := 1, product := 2 }).2.1 hostAB evA2
     { vendor := 1, product := 2 } rfl (by decide),
   (registry_first_arrival true sampleEvs { vendor := 1, product := 2 }).2.2
     { vendor := 1, product := 2 } { vendor := 1, product := 2 } (by decide) (by decide)⟩

end UsbHostLib
